import Mathlib

/-!
Shallow embedding of the user CRUD service consisting of
`src/repository/mongodb_repo.rs` (repository adapter over one MongoDB
collection) and `src/api/user_api.rs` (Rocket request handlers).

Modelling conventions:
- A Rust panic (`unwrap` / `expect`) is the outer `Except.error` layer of a
  return type `Except String (Except e a)`; the inner `Except` is the Rust
  `Result` the function declares.
- A driver-level failure of a single MongoDB call (connectivity etc.) is an
  explicit `fail : Bool` oracle argument: `fail = true` makes that driver call
  return the driver error the Rust code sees as `Err`.
- MongoDB ObjectId is a natural number below 16 ^ 24, written externally as a
  24-character hexadecimal string, which is what `ObjectId::parse_str`
  accepts.  The storage engine itself is out of scope of the repository and is
  modelled from the spec (one collection of documents, `_id` unique).
- The `User` struct lives in `src/models/user_model.rs`, which is not among
  the given sources; it is modelled from the spec data model: optional `id`
  assigned by storage, and free-form `name`, `location`, `title`.
- A stored document carries the four `User` fields plus an opaque list of
  extra fields so that frame properties (what an update does not touch) are
  expressible.
-/

deriving instance DecidableEq for Except

/-- Hexadecimal digit test, lower or upper case, as accepted by the ObjectId
string parser. -/
def isHexDig (c : Char) : Bool :=
  ('0' ≤ c && c ≤ '9') || ('a' ≤ c && c ≤ 'f') || ('A' ≤ c && c ≤ 'F')

/-- Numeric value of one hexadecimal digit character. -/
def hexVal (c : Char) : Nat :=
  if '0' ≤ c && c ≤ '9' then c.toNat - '0'.toNat
  else if 'a' ≤ c && c ≤ 'f' then 10 + (c.toNat - 'a'.toNat)
  else if 'A' ≤ c && c ≤ 'F' then 10 + (c.toNat - 'A'.toNat)
  else 0

/-- Hexadecimal digit character (lower case) for a value below 16. -/
def toHexDigit (n : Nat) : Char :=
  if n < 10 then Char.ofNat ('0'.toNat + n) else Char.ofNat ('a'.toNat + (n - 10))

/-- Value of a big-endian string of hexadecimal digits. -/
def parseHexNat (l : List Char) : Nat :=
  l.foldl (fun a c => 16 * a + hexVal c) 0

/-- Big-endian hexadecimal rendering of `n % 16 ^ k` on exactly `k` digits. -/
def toHexAux : Nat → Nat → List Char
  | 0, _ => []
  | k + 1, n => toHexAux k (n / 16) ++ [toHexDigit (n % 16)]

/-- MongoDB ObjectId, modelled as its 12-byte value. -/
abbrev ObjectId := Nat

/-- Canonical 24-character hexadecimal string of an ObjectId. -/
def ObjectId.toHex24 (n : ObjectId) : String := String.mk (toHexAux 24 n)

/-- Modelled from the spec: `ObjectId::parse_str` of the storage driver parses
an identifier string into the native identifier format, failing on malformed
input (anything but 24 hexadecimal characters). -/
def ObjectId.parse_str (s : String) : Except String ObjectId :=
  if s.data.length = 24 ∧ s.data.all isHexDig = true then
    Except.ok (parseHexNat s.data)
  else
    Except.error "malformed ObjectId"

/-- Modelled from the spec: the `User` entity of `src/models/user_model.rs`
(file not among the given sources): optional storage-assigned identifier plus
three free-form text fields. -/
structure User where
  id : Option ObjectId
  name : String
  location : String
  title : String
deriving DecidableEq, Repr

/-- One document of the collection: the four `User` fields plus opaque extra
fields untouched by this service, used to state frame properties. -/
structure StoredDoc where
  id : Option ObjectId
  name : String
  location : String
  title : String
  extra : List (String × String)
deriving DecidableEq, Repr

/-- Projection of a stored document to the `User` the driver deserializes. -/
def StoredDoc.toUser (d : StoredDoc) : User :=
  { id := d.id, name := d.name, location := d.location, title := d.title }

/-- State of the one MongoDB collection the adapter owns. -/
abbrev Collection := List StoredDoc

/-- Driver-level error of a single MongoDB call. -/
inductive MongoErr where
  | failure : MongoErr
deriving DecidableEq, Repr

/-- Error type `mongodb::bson::extjson::de::Error` declared (but, as proved
below, never produced) by the adapter methods. -/
inductive MError where
  | deJson : String → MError
deriving DecidableEq, Repr

/-- Acknowledgment of `insert_one`: the storage-assigned identifier. -/
structure InsertOneResult where
  inserted_id : ObjectId
deriving DecidableEq, Repr

/-- Result of `update_one`: how many documents matched and were modified. -/
structure UpdateResult where
  matched_count : Nat
  modified_count : Nat
deriving DecidableEq, Repr

/-- Result of `delete_one`: how many documents were deleted. -/
structure DeleteResult where
  deleted_count : Nat
deriving DecidableEq, Repr

/-- Replace the first element satisfying `p` by its image under `f`; `none`
when no element satisfies `p`. -/
def setFirst {α : Type} (p : α → Bool) (f : α → α) : List α → Option (List α)
  | [] => none
  | x :: xs => if p x then some (f x :: xs) else (setFirst p f xs).map (fun ys => x :: ys)

/-- Remove the first element satisfying `p`; `none` when no element
satisfies `p`. -/
def removeFirst {α : Type} (p : α → Bool) : List α → Option (List α)
  | [] => none
  | x :: xs => if p x then some xs else (removeFirst p xs).map (fun ys => x :: ys)

/-- Modelled from the spec: driver `insert_one` on the collection.  The
document is stored with the given identifier when the struct carries none
(the storage engine assigns it); a duplicate identifier is a driver error
(`_id` is unique), as is a failed call. -/
def Collection.insert_one (col : Collection) (new_doc : User) (fresh : ObjectId)
    (fail : Bool) : Except MongoErr (InsertOneResult × Collection) :=
  if fail then Except.error MongoErr.failure
  else
    let assigned := new_doc.id.getD fresh
    if col.any (fun d => d.id == some assigned) then Except.error MongoErr.failure
    else
      Except.ok ({ inserted_id := assigned },
        col ++ [{ id := some assigned, name := new_doc.name,
                  location := new_doc.location, title := new_doc.title, extra := [] }])

/-- Modelled from the spec: driver `find_one` with filter `_id = oid`. -/
def Collection.find_one (col : Collection) (oid : ObjectId) (fail : Bool) :
    Except MongoErr (Option User) :=
  if fail then Except.error MongoErr.failure
  else Except.ok ((col.find? (fun d => d.id == some oid)).map StoredDoc.toUser)

/-- Effect of the `$set` update document built by the adapter: overwrite the
four named fields, leaving every other field of the document alone. -/
def StoredDoc.applySet (d : StoredDoc) (u : User) : StoredDoc :=
  { d with id := u.id, name := u.name, location := u.location, title := u.title }

/-- Modelled from the spec: driver `update_one` with filter `_id = oid` and a
`$set` of the four `User` fields; reports matched and modified counts. -/
def Collection.update_one (col : Collection) (oid : ObjectId) (u : User)
    (fail : Bool) : Except MongoErr (UpdateResult × Collection) :=
  if fail then Except.error MongoErr.failure
  else
    match setFirst (fun d => d.id == some oid) (fun d => d.applySet u) col with
    | none => Except.ok ({ matched_count := 0, modified_count := 0 }, col)
    | some col2 =>
        Except.ok ({ matched_count := 1,
                     modified_count := if col2 = col then 0 else 1 }, col2)

/-- Modelled from the spec: driver `delete_one` with filter `_id = oid`. -/
def Collection.delete_one (col : Collection) (oid : ObjectId) (fail : Bool) :
    Except MongoErr (DeleteResult × Collection) :=
  if fail then Except.error MongoErr.failure
  else
    match removeFirst (fun d => d.id == some oid) col with
    | none => Except.ok ({ deleted_count := 0 }, col)
    | some col2 => Except.ok ({ deleted_count := 1 }, col2)

/-- Modelled from the spec: driver `find` with no filter, the cursor already
drained into a list (each document deserializing without error). -/
def Collection.findAll (col : Collection) (fail : Bool) :
    Except MongoErr (List StoredDoc) :=
  if fail then Except.error MongoErr.failure else Except.ok col

/-- Adapter `MongoRepo::create_user`: rebuilds the struct with `id := none`,
calls `insert_one`, turns a driver error into a panic via `expect`, and wraps
the acknowledgment in `Ok`. -/
def MongoRepo.create_user (col : Collection) (fresh : ObjectId) (fail : Bool)
    (new_user : User) : Except String (Except MError InsertOneResult) × Collection :=
  let new_doc : User :=
    { id := none, name := new_user.name, location := new_user.location,
      title := new_user.title }
  match Collection.insert_one col new_doc fresh fail with
  | Except.error _ => (Except.error "Error creating user", col)
  | Except.ok (user, col2) => (Except.ok (Except.ok user), col2)

/-- Adapter `MongoRepo::get_user`: `ObjectId::parse_str(id).unwrap()` (panic on
malformed id), `find_one` with `expect` (panic on driver error), then
`user_detail.unwrap()` (panic when no document matched). -/
def MongoRepo.get_user (col : Collection) (fail : Bool) (id : String) :
    Except String (Except MError User) :=
  match ObjectId.parse_str id with
  | Except.error _ => Except.error "called unwrap on an Err value"
  | Except.ok obj_id =>
    match Collection.find_one col obj_id fail with
    | Except.error _ => Except.error "Error getting user detail"
    | Except.ok none => Except.error "called unwrap on a None value"
    | Except.ok (some user_detail) => Except.ok (Except.ok user_detail)

/-- Adapter `MongoRepo::update_user`: parse with `unwrap`, `update_one` of the
`$set` document built from `new_user`, `expect` on driver error, wrap in `Ok`. -/
def MongoRepo.update_user (col : Collection) (fail : Bool) (id : String)
    (new_user : User) : Except String (Except MError UpdateResult) × Collection :=
  match ObjectId.parse_str id with
  | Except.error _ => (Except.error "called unwrap on an Err value", col)
  | Except.ok obj_id =>
    match Collection.update_one col obj_id new_user fail with
    | Except.error _ => (Except.error "Error updating user", col)
    | Except.ok (updated_doc, col2) => (Except.ok (Except.ok updated_doc), col2)

/-- Adapter `MongoRepo::delete_user`: parse with `unwrap`, `delete_one`,
`expect` on driver error, wrap in `Ok`. -/
def MongoRepo.delete_user (col : Collection) (fail : Bool) (id : String) :
    Except String (Except MError DeleteResult) × Collection :=
  match ObjectId.parse_str id with
  | Except.error _ => (Except.error "called unwrap on an Err value", col)
  | Except.ok obj_id =>
    match Collection.delete_one col obj_id fail with
    | Except.error _ => (Except.error "Error deleting user", col)
    | Except.ok (user_detail, col2) => (Except.ok (Except.ok user_detail), col2)

/-- Adapter `MongoRepo::get_all_users`: `find` with `expect` on driver error,
then the cursor mapped through per-document `unwrap` and collected. -/
def MongoRepo.get_all_users (col : Collection) (fail : Bool) :
    Except String (Except MError (List User)) :=
  match Collection.findAll col fail with
  | Except.error _ => Except.error "Error getting list of users"
  | Except.ok cursors => Except.ok (Except.ok (cursors.map StoredDoc.toUser))

/-- HTTP statuses the handlers produce on the error path. -/
inductive Status where
  | BadRequest : Status
  | NotFound : Status
  | InternalServerError : Status
deriving DecidableEq, Repr

/-- Handler `create_user` (`POST /user`): rebuild the body with `id := none`,
call the adapter, map `Ok` to 200 with the acknowledgment and `Err` to 500. -/
def UserApi.create_user (col : Collection) (fresh : ObjectId) (fail : Bool)
    (new_user : User) : Except String (Except Status InsertOneResult) × Collection :=
  let data : User :=
    { id := none, name := new_user.name, location := new_user.location,
      title := new_user.title }
  match MongoRepo.create_user col fresh fail data with
  | (Except.error p, col2) => (Except.error p, col2)
  | (Except.ok (Except.ok user), col2) => (Except.ok (Except.ok user), col2)
  | (Except.ok (Except.error _), col2) =>
      (Except.ok (Except.error Status.InternalServerError), col2)

/-- Handler `get_user` (`GET /user/<path>`): 400 when the id is empty,
otherwise adapter `get_user` with `Ok` mapped to 200 and `Err` to 500. -/
def UserApi.get_user (col : Collection) (fail : Bool) (path : String) :
    Except String (Except Status User) :=
  let id := path
  if id = "" then Except.ok (Except.error Status.BadRequest)
  else
    match MongoRepo.get_user col fail id with
    | Except.error p => Except.error p
    | Except.ok (Except.ok user) => Except.ok (Except.ok user)
    | Except.ok (Except.error _) => Except.ok (Except.error Status.InternalServerError)

/-- Handler `update_user` (`PUT /user/<path>`): 400 when the id is empty; the
body is rebuilt with `id := Some(ObjectId::parse_str(&id).unwrap())` (panic on
malformed id); on matched count 1 the record is re-read with adapter
`get_user` and returned, on any other matched count 404 is returned; an
adapter `Err` maps to 500. -/
def UserApi.update_user (col : Collection) (fail1 fail2 : Bool) (path : String)
    (new_user : User) : Except String (Except Status User) × Collection :=
  let id := path
  if id = "" then (Except.ok (Except.error Status.BadRequest), col)
  else
    match ObjectId.parse_str id with
    | Except.error _ => (Except.error "called unwrap on an Err value", col)
    | Except.ok oid =>
      let data : User :=
        { id := some oid, name := new_user.name, location := new_user.location,
          title := new_user.title }
      match MongoRepo.update_user col fail1 id data with
      | (Except.error p, col2) => (Except.error p, col2)
      | (Except.ok (Except.error _), col2) =>
          (Except.ok (Except.error Status.InternalServerError), col2)
      | (Except.ok (Except.ok update), col2) =>
          if update.matched_count = 1 then
            match MongoRepo.get_user col2 fail2 id with
            | Except.error p => (Except.error p, col2)
            | Except.ok (Except.ok user) => (Except.ok (Except.ok user), col2)
            | Except.ok (Except.error _) =>
                (Except.ok (Except.error Status.InternalServerError), col2)
          else (Except.ok (Except.error Status.NotFound), col2)

/-- Handler `delete_user` (`DELETE /user/<path>`): 400 when the id is empty;
deleted count 1 maps to 200 with a fixed confirmation string, any other count
to 404; an adapter `Err` maps to 500. -/
def UserApi.delete_user (col : Collection) (fail : Bool) (path : String) :
    Except String (Except Status String) × Collection :=
  let id := path
  if id = "" then (Except.ok (Except.error Status.BadRequest), col)
  else
    match MongoRepo.delete_user col fail id with
    | (Except.error p, col2) => (Except.error p, col2)
    | (Except.ok (Except.ok res), col2) =>
        if res.deleted_count = 1 then
          (Except.ok (Except.ok "User successfully deleted!"), col2)
        else (Except.ok (Except.error Status.NotFound), col2)
    | (Except.ok (Except.error _), col2) =>
        (Except.ok (Except.error Status.InternalServerError), col2)

/-- Handler `get_all_users` (`GET /users`): adapter `get_all_users` with `Ok`
mapped to 200 and `Err` to 500. -/
def UserApi.get_all_users (col : Collection) (fail : Bool) :
    Except String (Except Status (List User)) :=
  match MongoRepo.get_all_users col fail with
  | Except.error p => Except.error p
  | Except.ok (Except.ok users) => Except.ok (Except.ok users)
  | Except.ok (Except.error _) => Except.ok (Except.error Status.InternalServerError)

/-- One inbound request, with its nondeterministic inputs made explicit: the
fresh identifier a create would be assigned and the driver-failure oracle of
each driver call the handler makes. -/
inductive Op where
  | opCreate : User → ObjectId → Bool → Op
  | opGet : String → Bool → Op
  | opUpdate : String → User → Bool → Bool → Op
  | opDelete : String → Bool → Op
  | opList : Bool → Op
deriving DecidableEq, Repr

/-- State of the collection after serving one request. -/
def execOp (col : Collection) : Op → Collection
  | Op.opCreate u fresh fail => (UserApi.create_user col fresh fail u).2
  | Op.opGet _ _ => col
  | Op.opUpdate path u fail1 fail2 => (UserApi.update_user col fail1 fail2 path u).2
  | Op.opDelete path fail => (UserApi.delete_user col fail path).2
  | Op.opList _ => col

/-- State of the collection after serving a sequence of requests. -/
def execTrace (col : Collection) (tr : List Op) : Collection :=
  tr.foldl execOp col

/-- Identifiers of the live (created and not deleted) records after one more
request: a create that does not fail and whose identifier is unused appends
it; a delete with a non-empty, well-formed identifier and no driver failure
erases it; every other request leaves the set unchanged. -/
def stepLive (live : List ObjectId) : Op → List ObjectId
  | Op.opCreate _ fresh fail =>
      if fail then live
      else if live.contains fresh then live else live ++ [fresh]
  | Op.opDelete path fail =>
      if path = "" then live
      else
        match ObjectId.parse_str path with
        | Except.error _ => live
        | Except.ok oid => if fail then live else live.erase oid
  | _ => live

/-- Identifiers of the records created and not subsequently deleted by a
sequence of requests served from the empty collection. -/
def liveIds (tr : List Op) : List ObjectId :=
  tr.foldl stepLive []

/-- Integrity of the stored collection: the stored identifiers are pairwise
distinct. -/
def IdsNodup (col : Collection) : Prop :=
  (col.map StoredDoc.id).Nodup

/-- Adapter results whose declared Rust `Result` is not `Err`. -/
def returnsNoErr {α : Type} : Except String (Except MError α) → Bool
  | Except.ok (Except.error _) => false
  | _ => true

/-! Helper lemmas about hexadecimal identifier strings. -/

lemma hexVal_toHexDigit (m : Nat) (h : m < 16) : hexVal (toHexDigit m) = m := by
  interval_cases m <;> decide

lemma isHexDig_toHexDigit (m : Nat) (h : m < 16) : isHexDig (toHexDigit m) = true := by
  interval_cases m <;> decide

lemma length_toHexAux (k : Nat) : ∀ n : Nat, (toHexAux k n).length = k := by
  induction k with
  | zero => intro n; rfl
  | succ k ih => intro n; simp [toHexAux, ih]

lemma all_toHexAux (k : Nat) : ∀ n : Nat, (toHexAux k n).all isHexDig = true := by
  induction k with
  | zero => intro n; rfl
  | succ k ih =>
    intro n
    simp only [toHexAux, List.all_append, ih, Bool.true_and, List.all_cons,
      List.all_nil, Bool.and_true]
    exact isHexDig_toHexDigit _ (Nat.mod_lt n (by norm_num))

lemma parseHexNat_append_digit (l : List Char) (c : Char) :
    parseHexNat (l ++ [c]) = 16 * parseHexNat l + hexVal c := by
  simp [parseHexNat, List.foldl_append]

lemma parseHexNat_toHexAux (k : Nat) : ∀ n : Nat, parseHexNat (toHexAux k n) = n % 16 ^ k := by
  induction k with
  | zero => intro n; simp [toHexAux, parseHexNat, Nat.mod_one]
  | succ k ih =>
    intro n
    rw [toHexAux, parseHexNat_append_digit, ih,
      hexVal_toHexDigit _ (Nat.mod_lt n (by norm_num))]
    have h4 : (16 : Nat) ^ (k + 1) = 16 * 16 ^ k := by ring
    have h1 : n % (16 * 16 ^ k) / 16 = n / 16 % 16 ^ k :=
      Nat.mod_mul_right_div_self n 16 (16 ^ k)
    have h2 : n % (16 * 16 ^ k) % 16 = n % 16 :=
      Nat.mod_mod_of_dvd n ⟨16 ^ k, rfl⟩
    have h3 : 16 * (n % (16 * 16 ^ k) / 16) + n % (16 * 16 ^ k) % 16 = n % (16 * 16 ^ k) :=
      Nat.div_add_mod _ 16
    rw [h4]
    omega

lemma parse_str_toHex24 (n : Nat) (h : n < 16 ^ 24) :
    ObjectId.parse_str (ObjectId.toHex24 n) = Except.ok n := by
  have hdata : (ObjectId.toHex24 n).data = toHexAux 24 n := rfl
  rw [ObjectId.parse_str, hdata, if_pos ⟨length_toHexAux 24 n, all_toHexAux 24 n⟩,
    parseHexNat_toHexAux, Nat.mod_eq_of_lt h]

lemma toHex24_ne_empty (n : Nat) : ObjectId.toHex24 n ≠ "" := by
  intro h
  have hlen := congrArg (fun s => s.data.length) h
  simp only [ObjectId.toHex24] at hlen
  rw [length_toHexAux 24 n] at hlen
  simp at hlen

/-! Helper lemmas about `setFirst` and `removeFirst`. -/

lemma setFirst_some_spec {α : Type} (p : α → Bool) (f : α → α) :
    ∀ l l2, setFirst p f l = some l2 →
      ∃ pre d post, l = pre ++ d :: post ∧ l2 = pre ++ f d :: post ∧ p d = true ∧
        ∀ x ∈ pre, p x = false := by
  intro l
  induction l with
  | nil => intro l2 h; simp [setFirst] at h
  | cons x xs ih =>
    intro l2 h
    rw [setFirst] at h
    by_cases hp : p x
    · rw [if_pos hp] at h
      injection h with h
      exact ⟨[], x, xs, rfl, h ▸ rfl, hp, by intro y hy; cases hy⟩
    · rw [if_neg hp] at h
      cases hys : setFirst p f xs with
      | none => rw [hys] at h; simp at h
      | some ys =>
        rw [hys, Option.map_some'] at h
        injection h with h
        obtain ⟨pre, d, post, hl, hl2, hpd, hpre⟩ := ih ys hys
        refine ⟨x :: pre, d, post, by rw [hl]; rfl, by rw [← h, hl2]; rfl, hpd, ?_⟩
        intro y hy
        rcases List.mem_cons.mp hy with rfl | hy
        · simpa using hp
        · exact hpre y hy

lemma setFirst_eq_none {α : Type} (p : α → Bool) (f : α → α) :
    ∀ l, (∀ x ∈ l, p x = false) → setFirst p f l = none := by
  intro l
  induction l with
  | nil => intro _; rfl
  | cons x xs ih =>
    intro hl
    rw [setFirst, if_neg (by simp [hl x (List.mem_cons_self x xs)]),
      ih (fun y hy => hl y (List.mem_cons_of_mem x hy))]
    rfl

lemma removeFirst_some_spec {α : Type} (p : α → Bool) :
    ∀ l l2, removeFirst p l = some l2 →
      ∃ pre d post, l = pre ++ d :: post ∧ l2 = pre ++ post ∧ p d = true ∧
        ∀ x ∈ pre, p x = false := by
  intro l
  induction l with
  | nil => intro l2 h; simp [removeFirst] at h
  | cons x xs ih =>
    intro l2 h
    rw [removeFirst] at h
    by_cases hp : p x
    · rw [if_pos hp] at h
      injection h with h
      exact ⟨[], x, xs, rfl, h ▸ rfl, hp, by intro y hy; cases hy⟩
    · rw [if_neg hp] at h
      cases hys : removeFirst p xs with
      | none => rw [hys] at h; simp at h
      | some ys =>
        rw [hys, Option.map_some'] at h
        injection h with h
        obtain ⟨pre, d, post, hl, hl2, hpd, hpre⟩ := ih ys hys
        refine ⟨x :: pre, d, post, by rw [hl]; rfl, by rw [← h, hl2]; rfl, hpd, ?_⟩
        intro y hy
        rcases List.mem_cons.mp hy with rfl | hy
        · simpa using hp
        · exact hpre y hy

lemma removeFirst_eq_none {α : Type} (p : α → Bool) :
    ∀ l, (∀ x ∈ l, p x = false) → removeFirst p l = none := by
  intro l
  induction l with
  | nil => intro _; rfl
  | cons x xs ih =>
    intro hl
    rw [removeFirst, if_neg (by simp [hl x (List.mem_cons_self x xs)]),
      ih (fun y hy => hl y (List.mem_cons_of_mem x hy))]
    rfl

lemma find?_prefix_false {α : Type} (p : α → Bool) :
    ∀ (pre : List α), (∀ x ∈ pre, p x = false) → ∀ (d : α) post, p d = true →
      List.find? p (pre ++ d :: post) = some d := by
  intro pre
  induction pre with
  | nil => intro _ d post hd; simpa using List.find?_cons_of_pos post hd
  | cons x xs ih =>
    intro hpre d post hd
    rw [List.cons_append,
      List.find?_cons_of_neg _ (by simp [hpre x (List.mem_cons_self x xs)]),
      ih (fun y hy => hpre y (List.mem_cons_of_mem x hy)) d post hd]

/-! Correspondence between the collection state and the live identifier set. -/

lemma any_beq_eq_contains (a : ObjectId) :
    ∀ (col : Collection) (live : List ObjectId),
      col.map StoredDoc.id = live.map some →
      (col.any fun d => d.id == some a) = live.contains a := by
  intro col
  induction col with
  | nil =>
    intro live h
    cases live with
    | nil => rfl
    | cons b live' => simp at h
  | cons d col' ih =>
    intro live h
    cases live with
    | nil => simp at h
    | cons b live' =>
      simp only [List.map_cons] at h
      injection h with h1 h2
      rw [List.any_cons, ih live' h2, List.contains_cons, h1]
      by_cases hba : b = a
      · subst hba; simp
      · have e1 : (some b == some a) = false := beq_eq_false_iff_ne.mpr (by simpa using hba)
        have e2 : (a == b) = false := beq_eq_false_iff_ne.mpr (Ne.symm hba)
        rw [e1, e2]

lemma removeFirst_none_spec {α : Type} (p : α → Bool) :
    ∀ l, removeFirst p l = none → ∀ x ∈ l, p x = false := by
  intro l
  induction l with
  | nil => intro _ x hx; cases hx
  | cons y ys ih =>
    intro h x hx
    rw [removeFirst] at h
    by_cases hp : p y
    · rw [if_pos hp] at h; simp at h
    · rw [if_neg hp] at h
      rcases List.mem_cons.mp hx with rfl | hx
      · simpa using hp
      · cases hrec : removeFirst p ys with
        | none => exact ih hrec x hx
        | some zs => rw [hrec] at h; simp at h

lemma removeFirst_some_erase (oid : ObjectId) :
    ∀ (col : Collection) (live : List ObjectId) (c2 : Collection),
      col.map StoredDoc.id = live.map some →
      removeFirst (fun d : StoredDoc => d.id == some oid) col = some c2 →
      c2.map StoredDoc.id = (live.erase oid).map some := by
  intro col
  induction col with
  | nil => intro live c2 _ h; simp [removeFirst] at h
  | cons d col' ih =>
    intro live c2 hmap h
    cases live with
    | nil => simp at hmap
    | cons b live' =>
      simp only [List.map_cons] at hmap
      injection hmap with h1 h2
      rw [removeFirst] at h
      by_cases hb : b = oid
      · subst hb
        rw [if_pos (by simp [h1])] at h
        injection h with h
        rw [List.erase_cons_head, ← h, h2]
      · rw [if_neg (by simp [h1, beq_iff_eq, hb])] at h
        cases hrec : removeFirst (fun d : StoredDoc => d.id == some oid) col' with
        | none => rw [hrec] at h; simp at h
        | some ys =>
          rw [hrec, Option.map_some'] at h
          injection h with h
          rw [← h, List.erase_cons_tail (by simp [beq_iff_eq, hb]), List.map_cons,
            List.map_cons, h1, ih live' ys h2 hrec]

lemma not_mem_of_removeFirst_none (oid : ObjectId) :
    ∀ (col : Collection) (live : List ObjectId),
      col.map StoredDoc.id = live.map some →
      removeFirst (fun d : StoredDoc => d.id == some oid) col = none →
      oid ∉ live := by
  intro col live hmap h hmem
  have : some oid ∈ live.map some := List.mem_map_of_mem some hmem
  rw [← hmap] at this
  obtain ⟨d, hd, hid⟩ := List.mem_map.mp this
  have := removeFirst_none_spec _ col h d hd
  rw [hid] at this
  simp at this

lemma update_one_map_id (oid : ObjectId) (u : User) (hu : u.id = some oid) :
    ∀ (col col2 : Collection),
      setFirst (fun d => d.id == some oid) (fun d => d.applySet u) col = some col2 →
      col2.map StoredDoc.id = col.map StoredDoc.id := by
  intro col col2 h
  obtain ⟨pre, d, post, hl, hl2, hpd, _⟩ := setFirst_some_spec _ _ col col2 h
  subst hl hl2
  have hid : d.id = some oid := by simpa [beq_iff_eq] using hpd
  simp [StoredDoc.applySet, hu, hid]

lemma nodup_append_singleton {α : Type} {l : List α} {a : α}
    (h : l.Nodup) (ha : a ∉ l) : (l ++ [a]).Nodup := by
  rw [List.nodup_append]
  refine ⟨h, List.nodup_singleton a, ?_⟩
  intro x hx hx'
  simp only [List.mem_singleton] at hx'
  subst hx'
  exact ha hx

/-! Branch characterizations of the handlers. -/

lemma create_user_fail (col : Collection) (fresh : ObjectId) (u : User) :
    UserApi.create_user col fresh true u = (Except.error "Error creating user", col) := rfl

lemma create_user_dup (col : Collection) (fresh : ObjectId) (u : User)
    (h : (col.any fun d => d.id == some fresh) = true) :
    UserApi.create_user col fresh false u = (Except.error "Error creating user", col) := by
  simp only [UserApi.create_user, MongoRepo.create_user, Collection.insert_one]
  simp [h]

lemma create_user_ok (col : Collection) (fresh : ObjectId) (u : User)
    (h : (col.any fun d => d.id == some fresh) = false) :
    UserApi.create_user col fresh false u =
      (Except.ok (Except.ok { inserted_id := fresh }),
        col ++ [{ id := some fresh, name := u.name, location := u.location,
                  title := u.title, extra := [] }]) := by
  simp only [UserApi.create_user, MongoRepo.create_user, Collection.insert_one]
  simp [h]

lemma update_user_empty (col : Collection) (f1 f2 : Bool) (u : User) :
    UserApi.update_user col f1 f2 "" u = (Except.ok (Except.error Status.BadRequest), col) := rfl

lemma update_user_parse_error (col : Collection) (f1 f2 : Bool) (path : String) (u : User)
    (h : ¬path = "") (e : String) (hp : ObjectId.parse_str path = Except.error e) :
    UserApi.update_user col f1 f2 path u = (Except.error "called unwrap on an Err value", col) := by
  simp only [UserApi.update_user]
  simp [h, hp]

lemma update_user_fail1 (col : Collection) (f2 : Bool) (path : String) (u : User)
    (oid : ObjectId) (h : ¬path = "") (hp : ObjectId.parse_str path = Except.ok oid) :
    UserApi.update_user col true f2 path u = (Except.error "Error updating user", col) := by
  simp only [UserApi.update_user, MongoRepo.update_user, Collection.update_one]
  simp [h, hp]

lemma update_user_nomatch (col : Collection) (f2 : Bool) (path : String) (u : User)
    (oid : ObjectId) (h : ¬path = "") (hp : ObjectId.parse_str path = Except.ok oid)
    (hset : setFirst (fun d : StoredDoc => d.id == some oid)
      (fun d => d.applySet ⟨some oid, u.name, u.location, u.title⟩) col = none) :
    UserApi.update_user col false f2 path u = (Except.ok (Except.error Status.NotFound), col) := by
  simp only [UserApi.update_user, MongoRepo.update_user, Collection.update_one]
  simp [h, hp, hset]

lemma update_user_match (col : Collection) (f2 : Bool) (path : String) (u : User)
    (oid : ObjectId) (c2 : Collection) (h : ¬path = "")
    (hp : ObjectId.parse_str path = Except.ok oid)
    (hset : setFirst (fun d : StoredDoc => d.id == some oid)
      (fun d => d.applySet ⟨some oid, u.name, u.location, u.title⟩) col = some c2) :
    (UserApi.update_user col false f2 path u).2 = c2 ∧
    ∀ w, MongoRepo.get_user c2 f2 path = Except.ok (Except.ok w) →
      (UserApi.update_user col false f2 path u).1 = Except.ok (Except.ok w) := by
  simp only [UserApi.update_user, MongoRepo.update_user, Collection.update_one]
  simp only [h, hp, hset]
  constructor
  · cases hg : MongoRepo.get_user c2 f2 path with
    | error p => simp [hg]
    | ok q => cases q with
      | ok w => simp [hg]
      | error e => simp [hg]
  · intro w hw
    simp [hw]

lemma get_user_empty (col : Collection) (f : Bool) :
    UserApi.get_user col f "" = Except.ok (Except.error Status.BadRequest) := rfl

lemma get_user_parse_error (col : Collection) (f : Bool) (path : String)
    (h : ¬path = "") (e : String) (hp : ObjectId.parse_str path = Except.error e) :
    UserApi.get_user col f path = Except.error "called unwrap on an Err value" := by
  simp only [UserApi.get_user, MongoRepo.get_user]
  simp [h, hp]

lemma get_user_driver_fail (col : Collection) (path : String) (oid : ObjectId)
    (h : ¬path = "") (hp : ObjectId.parse_str path = Except.ok oid) :
    UserApi.get_user col true path = Except.error "Error getting user detail" := by
  simp only [UserApi.get_user, MongoRepo.get_user, Collection.find_one]
  simp [h, hp]

lemma get_user_found (col : Collection) (path : String) (oid : ObjectId) (w : StoredDoc)
    (h : ¬path = "") (hp : ObjectId.parse_str path = Except.ok oid)
    (hfind : col.find? (fun d : StoredDoc => d.id == some oid) = some w) :
    UserApi.get_user col false path = Except.ok (Except.ok w.toUser) := by
  simp only [UserApi.get_user, MongoRepo.get_user, Collection.find_one]
  simp [h, hp, hfind]

lemma get_user_notfound (col : Collection) (path : String) (oid : ObjectId)
    (h : ¬path = "") (hp : ObjectId.parse_str path = Except.ok oid)
    (hfind : col.find? (fun d : StoredDoc => d.id == some oid) = none) :
    UserApi.get_user col false path = Except.error "called unwrap on a None value" := by
  simp only [UserApi.get_user, MongoRepo.get_user, Collection.find_one]
  simp [h, hp, hfind]

lemma delete_user_empty (col : Collection) (f : Bool) :
    UserApi.delete_user col f "" = (Except.ok (Except.error Status.BadRequest), col) := rfl

lemma delete_user_parse_error (col : Collection) (f : Bool) (path : String)
    (h : ¬path = "") (e : String) (hp : ObjectId.parse_str path = Except.error e) :
    UserApi.delete_user col f path = (Except.error "called unwrap on an Err value", col) := by
  simp only [UserApi.delete_user, MongoRepo.delete_user]
  simp [h, hp]

lemma delete_user_driver_fail (col : Collection) (path : String) (oid : ObjectId)
    (h : ¬path = "") (hp : ObjectId.parse_str path = Except.ok oid) :
    UserApi.delete_user col true path = (Except.error "Error deleting user", col) := by
  simp only [UserApi.delete_user, MongoRepo.delete_user, Collection.delete_one]
  simp [h, hp]

lemma delete_user_removed (col : Collection) (path : String) (oid : ObjectId) (c2 : Collection)
    (h : ¬path = "") (hp : ObjectId.parse_str path = Except.ok oid)
    (hrm : removeFirst (fun d : StoredDoc => d.id == some oid) col = some c2) :
    UserApi.delete_user col false path = (Except.ok (Except.ok "User successfully deleted!"), c2) := by
  simp only [UserApi.delete_user, MongoRepo.delete_user, Collection.delete_one]
  simp [h, hp, hrm]

lemma delete_user_noremove (col : Collection) (path : String) (oid : ObjectId)
    (h : ¬path = "") (hp : ObjectId.parse_str path = Except.ok oid)
    (hrm : removeFirst (fun d : StoredDoc => d.id == some oid) col = none) :
    UserApi.delete_user col false path = (Except.ok (Except.error Status.NotFound), col) := by
  simp only [UserApi.delete_user, MongoRepo.delete_user, Collection.delete_one]
  simp [h, hp, hrm]

lemma get_all_users_ok (col : Collection) :
    UserApi.get_all_users col false = Except.ok (Except.ok (col.map StoredDoc.toUser)) := rfl

lemma get_all_users_driver_fail (col : Collection) :
    UserApi.get_all_users col true = Except.error "Error getting list of users" := rfl

/-! Invariant preservation and trace correspondence. -/

lemma not_mem_map_id_of_any_false (col : Collection) (a : ObjectId)
    (h : (col.any fun d => d.id == some a) = false) :
    some a ∉ col.map StoredDoc.id := by
  intro hmem
  obtain ⟨d, hd, hid⟩ := List.mem_map.mp hmem
  have := (List.any_eq_false.mp h) d hd
  rw [hid] at this
  simp at this

lemma removeFirst_sublist {α : Type} (p : α → Bool) (l l2 : List α)
    (h : removeFirst p l = some l2) : l2.Sublist l := by
  obtain ⟨pre, d, post, hl, hl2, _, _⟩ := removeFirst_some_spec p l l2 h
  subst hl hl2
  exact List.Sublist.append_left (List.sublist_cons_self d post) pre

lemma not_mem_of_contains_false {l : List ObjectId} {a : ObjectId}
    (h : l.contains a = false) : a ∉ l := by
  intro hm
  have : l.contains a = true := List.contains_iff_exists_mem_beq.mpr ⟨a, hm, by simp⟩
  rw [h] at this
  cases this

lemma update_user_map_id (col : Collection) (f1 f2 : Bool) (path : String) (u : User) :
    ((UserApi.update_user col f1 f2 path u).2).map StoredDoc.id = col.map StoredDoc.id := by
  by_cases hempty : path = ""
  · subst hempty; rw [update_user_empty]
  · cases hparse : ObjectId.parse_str path with
    | error e => rw [update_user_parse_error col f1 f2 path u hempty e hparse]
    | ok oid =>
      cases f1 with
      | true => rw [update_user_fail1 col f2 path u oid hempty hparse]
      | false =>
        cases hset : setFirst (fun d : StoredDoc => d.id == some oid)
            (fun d => d.applySet ⟨some oid, u.name, u.location, u.title⟩) col with
        | none => rw [update_user_nomatch col f2 path u oid hempty hparse hset]
        | some c2 =>
          rw [(update_user_match col f2 path u oid c2 hempty hparse hset).1]
          exact update_one_map_id oid ⟨some oid, u.name, u.location, u.title⟩ rfl col c2 hset

lemma execOp_ids_nodup (col : Collection) (op : Op) (h : IdsNodup col) :
    IdsNodup (execOp col op) := by
  cases op with
  | opGet path fail => exact h
  | opList fail => exact h
  | opUpdate path u f1 f2 =>
    unfold IdsNodup at h ⊢
    rw [execOp, update_user_map_id]
    exact h
  | opCreate u fresh fail =>
    cases fail with
    | true => rw [execOp, create_user_fail]; exact h
    | false =>
      cases hany : (col.any fun d => d.id == some fresh) with
      | true => rw [execOp, create_user_dup col fresh u hany]; exact h
      | false =>
        rw [execOp, create_user_ok col fresh u hany]
        unfold IdsNodup at h ⊢
        have hmap : (col ++ [(⟨some fresh, u.name, u.location, u.title, []⟩ : StoredDoc)]).map
            StoredDoc.id = col.map StoredDoc.id ++ [some fresh] := by simp
        rw [hmap]
        exact nodup_append_singleton h (not_mem_map_id_of_any_false col fresh hany)
  | opDelete path fail =>
    by_cases hempty : path = ""
    · subst hempty; rw [execOp, delete_user_empty]; exact h
    · cases hparse : ObjectId.parse_str path with
      | error e => rw [execOp, delete_user_parse_error col fail path hempty e hparse]; exact h
      | ok oid =>
        cases fail with
        | true => rw [execOp, delete_user_driver_fail col path oid hempty hparse]; exact h
        | false =>
          cases hrm : removeFirst (fun d : StoredDoc => d.id == some oid) col with
          | none => rw [execOp, delete_user_noremove col path oid hempty hparse hrm]; exact h
          | some c2 =>
            rw [execOp, delete_user_removed col path oid c2 hempty hparse hrm]
            exact ((removeFirst_sublist _ col c2 hrm).map StoredDoc.id).nodup h

lemma execOp_live_corr (op : Op) (col : Collection) (live : List ObjectId)
    (hmap : col.map StoredDoc.id = live.map some) (hnd : live.Nodup) :
    (execOp col op).map StoredDoc.id = (stepLive live op).map some ∧ (stepLive live op).Nodup := by
  cases op with
  | opGet path fail => exact ⟨hmap, hnd⟩
  | opList fail => exact ⟨hmap, hnd⟩
  | opUpdate path u f1 f2 =>
    refine ⟨?_, hnd⟩
    show ((UserApi.update_user col f1 f2 path u).2).map StoredDoc.id = live.map some
    rw [update_user_map_id]
    exact hmap
  | opCreate u fresh fail =>
    cases fail with
    | true => rw [execOp, create_user_fail, stepLive]; exact ⟨hmap, hnd⟩
    | false =>
      have hany := any_beq_eq_contains fresh col live hmap
      cases hc : live.contains fresh with
      | true =>
        rw [execOp, create_user_dup col fresh u (hany.trans hc), stepLive]
        simp only [hc, Bool.false_eq_true, if_false, if_true]
        exact ⟨hmap, hnd⟩
      | false =>
        rw [execOp, create_user_ok col fresh u (hany.trans hc), stepLive]
        simp only [hc, Bool.false_eq_true, if_false]
        constructor
        · simp [hmap]
        · exact nodup_append_singleton hnd (not_mem_of_contains_false hc)
  | opDelete path fail =>
    by_cases hempty : path = ""
    · subst hempty
      rw [execOp, delete_user_empty, stepLive]
      exact ⟨hmap, hnd⟩
    · cases hparse : ObjectId.parse_str path with
      | error e =>
        rw [execOp, delete_user_parse_error col fail path hempty e hparse, stepLive]
        simp only [hempty, hparse, if_false]
        exact ⟨hmap, hnd⟩
      | ok oid =>
        have hndE : (live.erase oid).Nodup := (List.erase_sublist oid live).nodup hnd
        cases fail with
        | true =>
          rw [execOp, delete_user_driver_fail col path oid hempty hparse, stepLive]
          simp only [hempty, hparse, if_false, if_true]
          exact ⟨hmap, hnd⟩
        | false =>
          cases hrm : removeFirst (fun d : StoredDoc => d.id == some oid) col with
          | none =>
            rw [execOp, delete_user_noremove col path oid hempty hparse hrm, stepLive]
            simp only [hempty, hparse, if_false, Bool.false_eq_true]
            rw [List.erase_of_not_mem (not_mem_of_removeFirst_none oid col live hmap hrm)]
            exact ⟨hmap, hnd⟩
          | some c2 =>
            rw [execOp, delete_user_removed col path oid c2 hempty hparse hrm, stepLive]
            simp only [hempty, hparse, if_false, Bool.false_eq_true]
            exact ⟨removeFirst_some_erase oid col live c2 hmap hrm, hndE⟩

lemma execTrace_live_corr : ∀ (tr : List Op) (col : Collection) (live : List ObjectId),
    col.map StoredDoc.id = live.map some → live.Nodup →
    (execTrace col tr).map StoredDoc.id = (tr.foldl stepLive live).map some ∧
    (tr.foldl stepLive live).Nodup := by
  intro tr
  induction tr with
  | nil => intro col live h hnd; exact ⟨h, hnd⟩
  | cons op tr ih =>
    intro col live h hnd
    obtain ⟨h1, h2⟩ := execOp_live_corr op col live h hnd
    simpa only [execTrace, List.foldl_cons] using ih (execOp col op) (stepLive live op) h1 h2

lemma setFirst_append {α : Type} (p : α → Bool) (f : α → α) :
    ∀ (pre : List α), (∀ x ∈ pre, p x = false) → ∀ d post, p d = true →
      setFirst p f (pre ++ d :: post) = some (pre ++ f d :: post) := by
  intro pre
  induction pre with
  | nil => intro _ d post hd; simp [setFirst, hd]
  | cons x xs ih =>
    intro hpre d post hd
    rw [List.cons_append, setFirst,
      if_neg (by simp [hpre x (List.mem_cons_self x xs)]),
      ih (fun y hy => hpre y (List.mem_cons_of_mem x hy)) d post hd]
    rfl

lemma countP_map_some (i : ObjectId) (l : List ObjectId) :
    List.countP (fun x => x == some i) (l.map some) = List.countP (fun x => x == i) l := by
  induction l with
  | nil => rfl
  | cons b t ih =>
    rw [List.map_cons, List.countP_cons, List.countP_cons, ih]
    by_cases hbi : b = i
    · subst hbi; simp
    · simp [beq_eq_false_iff_ne.mpr hbi,
        beq_eq_false_iff_ne.mpr (fun hx : some b = some i => hbi (Option.some.inj hx))]

lemma countP_beq_nodup (i : ObjectId) : ∀ (l : List ObjectId), l.Nodup →
    List.countP (fun x => x == i) l = if i ∈ l then 1 else 0 := by
  intro l
  induction l with
  | nil => intro _; rfl
  | cons b t ih =>
    intro hnd
    obtain ⟨hb, ht⟩ := List.nodup_cons.mp hnd
    rw [List.countP_cons, ih ht]
    by_cases hbi : b = i
    · subst hbi
      simp [hb]
    · simp only [beq_eq_false_iff_ne.mpr hbi, List.mem_cons]
      by_cases hit : i ∈ t
      · simp [hit]
      · simp [hit, Ne.symm hbi]

/-! Claim theorems. -/

/-- C3: for the get, update and delete handlers, an empty-string path
identifier yields status 400 (BadRequest) with the collection returned
untouched, for every collection state and every driver-failure oracle — so
the outcome is independent of storage and no repository-adapter call can
influence it. -/
theorem claim_C3_empty_id_bad_request (col : Collection) (f1 f2 : Bool) (u : User) :
    UserApi.get_user col f1 "" = Except.ok (Except.error Status.BadRequest) ∧
    UserApi.update_user col f1 f2 "" u = (Except.ok (Except.error Status.BadRequest), col) ∧
    UserApi.delete_user col f1 "" = (Except.ok (Except.error Status.BadRequest), col) :=
  ⟨get_user_empty col f1, update_user_empty col f1 f2 u, delete_user_empty col f1⟩

/-- C10: no repository-adapter method ever returns the Err variant of its
declared Result: on every input, state and driver-failure oracle the value
returned (when the method returns instead of panicking) is Ok, so the
handler branches mapping an adapter Err to 500 cannot be reached through the
adapter. -/
theorem claim_C10_no_err_variant (col : Collection) (fresh : ObjectId) (fail : Bool)
    (u : User) (id : String) :
    returnsNoErr (MongoRepo.create_user col fresh fail u).1 = true ∧
    returnsNoErr (MongoRepo.get_user col fail id) = true ∧
    returnsNoErr (MongoRepo.update_user col fail id u).1 = true ∧
    returnsNoErr (MongoRepo.delete_user col fail id).1 = true ∧
    returnsNoErr (MongoRepo.get_all_users col fail) = true := by
  refine ⟨?_, ?_, ?_, ?_, ?_⟩
  · rw [MongoRepo.create_user]
    split <;> rfl
  · rw [MongoRepo.get_user]
    split
    · rfl
    · split <;> rfl
  · rw [MongoRepo.update_user]
    split
    · rfl
    · split <;> rfl
  · rw [MongoRepo.delete_user]
    split
    · rfl
    · split <;> rfl
  · rw [MongoRepo.get_all_users]
    split <;> rfl

/-- C6: the create handler inserts the record with its identifier unset, so
the stored document carries the storage-assigned identifier no matter what
identifier the request body carries, and the 200 response carries that
storage-assigned identifier as the insert acknowledgment. -/
theorem claim_C6_create_id_unset (col : Collection) (fresh : ObjectId) (u : User)
    (h : (col.any fun d => d.id == some fresh) = false) :
    UserApi.create_user col fresh false u =
      (Except.ok (Except.ok { inserted_id := fresh }),
        col ++ [{ id := some fresh, name := u.name, location := u.location,
                  title := u.title, extra := [] }]) :=
  create_user_ok col fresh u h

/-- Witness for C6 at a body that carries an identifier: the stored record
and the acknowledgment still use the storage-assigned identifier 7, not the
body identifier 3. -/
theorem claim_C6_create_id_unset_witness :
    UserApi.create_user [] 7 false { id := some 3, name := "A", location := "B", title := "C" } =
      (Except.ok (Except.ok { inserted_id := 7 }),
        [{ id := some 7, name := "A", location := "B", title := "C", extra := [] }]) :=
  claim_C6_create_id_unset [] 7 ⟨some 3, "A", "B", "C"⟩ (by decide)

/-- C2 as stated is false on the code: at the concrete inputs below (a
well-formed identifier over the empty collection, and a malformed
identifier) the get handler does not return status 500 — it panics. -/
theorem claim_C2_counterexample :
    UserApi.get_user [] false "000000000000000000000000" ≠
        Except.ok (Except.error Status.InternalServerError) ∧
    UserApi.get_user [] false "zz" ≠ Except.ok (Except.error Status.InternalServerError) ∧
    UserApi.get_user [] false "000000000000000000000000" =
        Except.error "called unwrap on a None value" ∧
    UserApi.get_user [] false "zz" = Except.error "called unwrap on an Err value" :=
  ⟨by decide, by decide, by decide, by decide⟩

/-- C2 amended: for every non-empty identifier the get handler returns
neither 200 nor 500 when the identifier is malformed or matches no stored
record — it panics inside the adapter (unwrap on the parse error, or unwrap
on the absent document after a successful driver call). -/
theorem claim_C2_get_missing_or_malformed_panics (col : Collection) (path : String)
    (h : ¬path = "") :
    (∀ e, ObjectId.parse_str path = Except.error e →
      UserApi.get_user col false path = Except.error "called unwrap on an Err value") ∧
    (∀ oid, ObjectId.parse_str path = Except.ok oid →
      col.find? (fun d : StoredDoc => d.id == some oid) = none →
      UserApi.get_user col false path = Except.error "called unwrap on a None value") :=
  ⟨fun e hp => get_user_parse_error col false path h e hp,
   fun oid hp hfind => get_user_notfound col path oid h hp hfind⟩

/-- Witness for the amended C2: a well-formed identifier over the empty
collection panics with the unwrap-on-None message. -/
theorem claim_C2_get_missing_or_malformed_panics_witness :
    UserApi.get_user [] false "000000000000000000000000" =
      Except.error "called unwrap on a None value" :=
  (claim_C2_get_missing_or_malformed_panics [] "000000000000000000000000"
    (by decide)).2 0 (by decide) (by decide)

/-- C1 as stated is false on the code: at the concrete input below (delete
with the malformed identifier string zz) the operation does not terminate
with an HTTP status or result value — it panics in the adapter on unwrap of
the identifier parse. -/
theorem claim_C1_counterexample :
    UserApi.delete_user [] false "zz" = (Except.error "called unwrap on an Err value", []) := by
  decide

/-- C1 amended: an operation may panic instead of returning a status (on a
malformed identifier, a get of an absent record, or a driver failure), but
no request — successful, failed or panicking — corrupts the stored state:
every operation preserves pairwise distinctness of the stored identifiers,
so the state stays usable for subsequent requests. -/
theorem claim_C1_state_usable (col : Collection) (op : Op) (h : IdsNodup col) :
    IdsNodup (execOp col op) :=
  execOp_ids_nodup col op h

/-- Witness for the amended C1: deleting one of two stored records keeps the
identifier set duplicate-free. -/
theorem claim_C1_state_usable_witness :
    IdsNodup (execOp [⟨some 1, "n", "l", "t", []⟩, ⟨some 2, "m", "k", "s", []⟩]
      (Op.opDelete (ObjectId.toHex24 1) false)) :=
  claim_C1_state_usable [⟨some 1, "n", "l", "t", []⟩, ⟨some 2, "m", "k", "s", []⟩]
    (Op.opDelete (ObjectId.toHex24 1) false)
    (show (List.map StoredDoc.id
      [⟨some 1, "n", "l", "t", []⟩, ⟨some 2, "m", "k", "s", []⟩]).Nodup by decide)

lemma repo_get_user_found (col : Collection) (path : String) (oid : ObjectId) (w : StoredDoc)
    (hp : ObjectId.parse_str path = Except.ok oid)
    (hfind : col.find? (fun d : StoredDoc => d.id == some oid) = some w) :
    MongoRepo.get_user col false path = Except.ok (Except.ok w.toUser) := by
  simp only [MongoRepo.get_user, Collection.find_one]
  simp [hp, hfind]

/-- C4: for an update request with a non-empty, well-formed identifier and no
driver failure, a reported matched count of exactly 0 makes the handler
return 404 (NotFound), and a matched count of exactly 1 makes it return 200
with the record the adapter re-reads from the post-update store — the body
is that re-read record, not the request body. -/
theorem claim_C4_update_matched_count (col : Collection) (path : String) (u : User)
    (oid : ObjectId) (res : UpdateResult) (col2 : Collection)
    (h : ¬path = "") (hp : ObjectId.parse_str path = Except.ok oid)
    (hupd : Collection.update_one col oid ⟨some oid, u.name, u.location, u.title⟩ false =
      Except.ok (res, col2)) :
    (res.matched_count = 0 →
      UserApi.update_user col false false path u =
        (Except.ok (Except.error Status.NotFound), col)) ∧
    (res.matched_count = 1 →
      ∃ w, MongoRepo.get_user col2 false path = Except.ok (Except.ok w) ∧
        UserApi.update_user col false false path u = (Except.ok (Except.ok w), col2)) := by
  cases hset : setFirst (fun d : StoredDoc => d.id == some oid)
      (fun d => d.applySet ⟨some oid, u.name, u.location, u.title⟩) col with
  | none =>
    have heq : Collection.update_one col oid ⟨some oid, u.name, u.location, u.title⟩ false =
        Except.ok (⟨0, 0⟩, col) := by
      simp [Collection.update_one, hset]
    rw [heq] at hupd
    injection hupd with hupd
    injection hupd with hres hcol2
    subst hres
    subst hcol2
    constructor
    · intro _
      exact update_user_nomatch col false path u oid h hp hset
    · intro h1
      simp at h1
  | some c2 =>
    have heq : Collection.update_one col oid ⟨some oid, u.name, u.location, u.title⟩ false =
        Except.ok (⟨1, if c2 = col then 0 else 1⟩, c2) := by
      simp [Collection.update_one, hset]
    rw [heq] at hupd
    injection hupd with hupd
    injection hupd with hres hcol2
    subst hres
    subst hcol2
    constructor
    · intro h0
      simp at h0
    · intro _
      obtain ⟨pre, d, post, hl, hl2, hpd, hpre⟩ := setFirst_some_spec _ _ col c2 hset
      have hfind : c2.find? (fun x : StoredDoc => x.id == some oid) =
          some (d.applySet ⟨some oid, u.name, u.location, u.title⟩) := by
        rw [hl2]
        exact find?_prefix_false _ pre hpre _ post (by simp [StoredDoc.applySet])
      refine ⟨(d.applySet ⟨some oid, u.name, u.location, u.title⟩).toUser, ?_, ?_⟩
      · exact repo_get_user_found c2 path oid _ hp hfind
      · have hm := update_user_match col false path u oid c2 h hp hset
        exact Prod.ext_iff.mpr ⟨hm.2 _ (repo_get_user_found c2 path oid _ hp hfind), hm.1⟩

/-- Witness for C4, matched count 1: updating the one stored record returns
200 with the re-read record carrying the new field values. -/
theorem claim_C4_update_matched_count_witness :
    ∃ w, MongoRepo.get_user [⟨some 1, "N", "L", "T", []⟩] false (ObjectId.toHex24 1) =
        Except.ok (Except.ok w) ∧
      UserApi.update_user [⟨some 1, "n", "l", "t", []⟩] false false (ObjectId.toHex24 1)
          ⟨none, "N", "L", "T"⟩ =
        (Except.ok (Except.ok w), [⟨some 1, "N", "L", "T", []⟩]) :=
  (claim_C4_update_matched_count [⟨some 1, "n", "l", "t", []⟩] (ObjectId.toHex24 1)
      ⟨none, "N", "L", "T"⟩ 1 ⟨1, 1⟩ [⟨some 1, "N", "L", "T", []⟩]
      (by decide) (by decide) (by decide)).2 (by decide)

/-- C5: for a delete request with a non-empty, well-formed identifier and no
driver failure, the handler returns 200 with the fixed confirmation string
exactly when the reported deleted count is 1, and 404 when it is 0; and
after a successful delete over a store with distinct identifiers, a second
delete of the same identifier returns 404 (NotFound). -/
theorem claim_C5_delete_count (col : Collection) (path : String) (oid : ObjectId)
    (res : DeleteResult) (col2 : Collection)
    (h : ¬path = "") (hp : ObjectId.parse_str path = Except.ok oid)
    (hnd : IdsNodup col)
    (hdel : Collection.delete_one col oid false = Except.ok (res, col2)) :
    (res.deleted_count = 1 ↔
      UserApi.delete_user col false path =
        (Except.ok (Except.ok "User successfully deleted!"), col2)) ∧
    (res.deleted_count = 0 →
      UserApi.delete_user col false path = (Except.ok (Except.error Status.NotFound), col2)) ∧
    (res.deleted_count = 1 →
      UserApi.delete_user col2 false path = (Except.ok (Except.error Status.NotFound), col2)) := by
  cases hrm : removeFirst (fun d : StoredDoc => d.id == some oid) col with
  | none =>
    have heq : Collection.delete_one col oid false = Except.ok (⟨0⟩, col) := by
      simp [Collection.delete_one, hrm]
    rw [heq] at hdel
    injection hdel with hdel
    injection hdel with hres hcol2
    subst hres
    subst hcol2
    refine ⟨?_, ?_, ?_⟩
    · constructor
      · intro h1; simp at h1
      · intro habs
        rw [delete_user_noremove col path oid h hp hrm] at habs
        simp at habs
    · intro _
      exact delete_user_noremove col path oid h hp hrm
    · intro h1; simp at h1
  | some c2 =>
    have heq : Collection.delete_one col oid false = Except.ok (⟨1⟩, c2) := by
      simp [Collection.delete_one, hrm]
    rw [heq] at hdel
    injection hdel with hdel
    injection hdel with hres hcol2
    subst hres
    subst hcol2
    have hsecond : removeFirst (fun d : StoredDoc => d.id == some oid) c2 = none := by
      obtain ⟨pre, d, post, hl, hl2, hpd, hpre⟩ := removeFirst_some_spec _ col c2 hrm
      have hdid : d.id = some oid := by simpa [beq_iff_eq] using hpd
      apply removeFirst_eq_none
      intro x hx
      rw [hl2] at hx
      rcases List.mem_append.mp hx with hxpre | hxpost
      · exact hpre x hxpre
      · have hndl : ((pre ++ d :: post).map StoredDoc.id).Nodup := by
          rw [← hl]; exact hnd
        rw [List.map_append, List.map_cons] at hndl
        have hdpost : d.id ∉ post.map StoredDoc.id :=
          (List.nodup_cons.mp ((List.nodup_append.mp hndl).2.1)).1
        have hxne : x.id ≠ some oid := by
          intro hxid
          exact hdpost (by rw [hdid, ← hxid]; exact List.mem_map_of_mem _ hxpost)
        exact beq_eq_false_iff_ne.mpr hxne
    refine ⟨?_, ?_, ?_⟩
    · constructor
      · intro _; exact delete_user_removed col path oid c2 h hp hrm
      · intro _; rfl
    · intro h0; simp at h0
    · intro _
      exact delete_user_noremove c2 path oid h hp hsecond

/-- Witness for C5: deleting the one stored record returns the confirmation
string; repeating the delete on the resulting empty store returns 404. -/
theorem claim_C5_delete_count_witness :
    UserApi.delete_user [⟨some 1, "n", "l", "t", []⟩] false (ObjectId.toHex24 1) =
      (Except.ok (Except.ok "User successfully deleted!"), []) ∧
    UserApi.delete_user [] false (ObjectId.toHex24 1) =
      (Except.ok (Except.error Status.NotFound), []) := by
  have hc := claim_C5_delete_count [⟨some 1, "n", "l", "t", []⟩] (ObjectId.toHex24 1) 1
    ⟨1⟩ [] (by decide) (by decide)
    (show (List.map StoredDoc.id [⟨some 1, "n", "l", "t", []⟩]).Nodup by decide) (by decide)
  exact ⟨hc.1.mp rfl, hc.2.2 rfl⟩

/-- C7: an update on an existing record overwrites the three text fields
unconditionally with the request-body values and additionally re-writes the
id field with the parsed path identifier (equal to the stored identifier);
no field outside id, name, location, title of the matched document is
modified — its extra fields survive — and no other document changes. -/
theorem claim_C7_update_frame (pre post : Collection) (d : StoredDoc) (path : String)
    (u : User) (oid : ObjectId)
    (h : ¬path = "") (hp : ObjectId.parse_str path = Except.ok oid)
    (hd : d.id = some oid) (hpre : ∀ x ∈ pre, x.id ≠ some oid) :
    (UserApi.update_user (pre ++ d :: post) false false path u).2 =
      pre ++ ⟨some oid, u.name, u.location, u.title, d.extra⟩ :: post := by
  have hset : setFirst (fun x : StoredDoc => x.id == some oid)
      (fun x => x.applySet ⟨some oid, u.name, u.location, u.title⟩) (pre ++ d :: post) =
      some (pre ++ d.applySet ⟨some oid, u.name, u.location, u.title⟩ :: post) :=
    setFirst_append _ _ pre (fun x hx => beq_eq_false_iff_ne.mpr (hpre x hx)) d post
      (by simp [hd])
  rw [(update_user_match (pre ++ d :: post) false path u oid _ h hp hset).1]
  rfl

/-- Witness for C7: updating the second of two records overwrites its three
text fields, keeps its identifier and extra field, and leaves the first
record untouched. -/
theorem claim_C7_update_frame_witness :
    (UserApi.update_user [⟨some 2, "a", "b", "c", []⟩, ⟨some 1, "n", "l", "t", [("k", "v")]⟩]
        false false (ObjectId.toHex24 1) ⟨none, "N", "L", "T"⟩).2 =
      [⟨some 2, "a", "b", "c", []⟩, ⟨some 1, "N", "L", "T", [("k", "v")]⟩] :=
  claim_C7_update_frame [⟨some 2, "a", "b", "c", []⟩] [] ⟨some 1, "n", "l", "t", [("k", "v")]⟩
    (ObjectId.toHex24 1) ⟨none, "N", "L", "T"⟩ 1 (by decide) (by decide) (by decide) (by decide)

/-- C9: a create with fresh storage-assigned identifier succeeds, answers
with that identifier, and an immediately following get by the hexadecimal
rendering of that identifier returns a record with exactly the three field
values of the create request. -/
theorem claim_C9_create_then_get (col : Collection) (fresh : ObjectId) (u : User)
    (hlt : fresh < 16 ^ 24)
    (hfresh : (col.any fun d => d.id == some fresh) = false) :
    UserApi.create_user col fresh false u =
      (Except.ok (Except.ok { inserted_id := fresh }),
        col ++ [⟨some fresh, u.name, u.location, u.title, []⟩]) ∧
    UserApi.get_user (col ++ [⟨some fresh, u.name, u.location, u.title, []⟩]) false
        (ObjectId.toHex24 fresh) =
      Except.ok (Except.ok ⟨some fresh, u.name, u.location, u.title⟩) := by
  constructor
  · exact create_user_ok col fresh u hfresh
  · have hfind : List.find? (fun x : StoredDoc => x.id == some fresh)
        (col ++ [(⟨some fresh, u.name, u.location, u.title, []⟩ : StoredDoc)]) =
        some (⟨some fresh, u.name, u.location, u.title, []⟩ : StoredDoc) :=
      find?_prefix_false (fun x : StoredDoc => x.id == some fresh) col
        (fun x hx => by simpa using List.any_eq_false.mp hfresh x hx)
        (⟨some fresh, u.name, u.location, u.title, []⟩ : StoredDoc) [] (by simp)
    exact get_user_found (col ++ [(⟨some fresh, u.name, u.location, u.title, []⟩ : StoredDoc)])
      (ObjectId.toHex24 fresh) fresh (⟨some fresh, u.name, u.location, u.title, []⟩ : StoredDoc)
      (toHex24_ne_empty fresh) (parse_str_toHex24 fresh hlt) hfind

/-- Witness for C9 with body fields A, B, C over the empty collection. -/
theorem claim_C9_create_then_get_witness :
    UserApi.create_user [] 1 false ⟨none, "A", "B", "C"⟩ =
      (Except.ok (Except.ok { inserted_id := 1 }), [⟨some 1, "A", "B", "C", []⟩]) ∧
    UserApi.get_user [⟨some 1, "A", "B", "C", []⟩] false (ObjectId.toHex24 1) =
      Except.ok (Except.ok ⟨some 1, "A", "B", "C"⟩) :=
  claim_C9_create_then_get [] 1 ⟨none, "A", "B", "C"⟩ (by decide) (by decide)

/-- C8: for every trace of requests served from the empty collection, the
list handler returns 200 with the whole collection materialized as a list,
and that list holds the records of each created and not subsequently
deleted identifier exactly once: the count of returned records carrying
identifier i is 1 when i is live after the trace and 0 otherwise, so there
are no duplicates and no omissions. -/
theorem claim_C8_list_all_exact (tr : List Op) (i : ObjectId) :
    UserApi.get_all_users (execTrace [] tr) false =
      Except.ok (Except.ok ((execTrace [] tr).map StoredDoc.toUser)) ∧
    ((execTrace [] tr).map StoredDoc.toUser).countP (fun u => u.id == some i) =
      (if i ∈ liveIds tr then 1 else 0) := by
  obtain ⟨hmap, hnd⟩ := execTrace_live_corr tr [] [] rfl List.nodup_nil
  refine ⟨get_all_users_ok _, ?_⟩
  have e1 : ((execTrace [] tr).map StoredDoc.toUser).countP (fun u => u.id == some i) =
      (execTrace [] tr).countP (fun d : StoredDoc => d.id == some i) :=
    List.countP_map _ _ _
  have e2 : ((execTrace [] tr).map StoredDoc.id).countP (fun x => x == some i) =
      (execTrace [] tr).countP (fun d : StoredDoc => d.id == some i) :=
    List.countP_map _ _ _
  rw [e1, ← e2, hmap, countP_map_some i (tr.foldl stepLive [])]
  exact countP_beq_nodup i (tr.foldl stepLive []) hnd
